import Mathlib

/-!
Shallow embedding of the tjmonk/statemachine repository core:

* `src/src/engine.c`  — event dispatch (`HandleSignal`, `CheckTransition`,
  `CheckInConditions`, `EnterState`, `ExitState`, `FindState`)
* `src/src/timer.c`   — keyed timer service (`CreateTimer`, `CreateTick`,
  `DeleteTimer`)
* `src/statemachine.y` — parser semantic actions (`timer_statement`
  reductions, `transition` reduction and `RequestNotifications`)

External collaborators (libvaraction evaluation, the variable server, the
OS timer facility) are modelled as oracles: evaluation results, statement
processing results and OS call outcomes are parameters, never inspected
beyond how the C code inspects them.
-/

/-! ## Error codes and signal numbers (errno.h, SMTypes.h) -/

def EOK : Nat := 0

def ENOENT : Nat := 2

def EINVAL : Nat := 22

def ENOTSUP : Nat := 95

def ENOTRECOVERABLE : Nat := 131

/-- TIMER_NOTIFICATION is SIGRTMIN+5 (glibc SIGRTMIN = 34). -/
def TIMER_NOTIFICATION : Nat := 39

/-- VAR_NOTIFICATION is SIGRTMIN+6. -/
def VAR_NOTIFICATION : Nat := 40

/-- The invalid variable-server handle VAR_INVALID. -/
def VAR_INVALID : Nat := 0

/-! ## Expression AST (the libvaraction `Variable` struct, fields the core reads) -/

/-- Operation codes stored in the `operation` field of a `Variable` node.
Only the operations the engine and the parser actions in this repository
inspect or construct are enumerated. -/
inductive VarOp where
  | VA_TIMER
  | VA_SYSVAR
  | VA_CREATE_TIMER
  | VA_CREATE_TICK
  | VA_DELETE_TIMER
  | VA_EQUALS
  | VA_ACTIVE_TIMER
  | VA_NUM
  | VA_LOCALVAR
  | VA_AND
  | VA_OR
  | VA_NOT
  | VA_ASSIGN
  | VA_IF
  | VA_ELSE
deriving DecidableEq, Repr

/-- A `Variable *` expression tree.  `nil` is the NULL pointer; a `node`
carries the `operation` code, the unsigned value `obj.val.ui`, the
variable-server handle `hVar`, and the `left`/`right` children. -/
inductive VarTree where
  | nil
  | node (op : VarOp) (ui : Nat) (hVar : Nat) (left right : VarTree)
deriving DecidableEq, Repr

/-! ## Guard matcher (engine.c `CheckInConditions`) -/

/-- Translation of `CheckInConditions` (engine.c lines 449-480).
A NULL tree yields EINVAL; otherwise the node matches a timer event when
it is a VA_TIMER node whose stored value equals the id, matches a
variable event when it is a VA_SYSVAR node whose handle equals the id,
and otherwise the left then right subtrees are searched; ENOENT when
nothing matches. -/
def CheckInConditions : VarTree → Nat → Nat → Nat
  | VarTree.nil, _, _ => EINVAL
  | VarTree.node op ui h l r, signum, id =>
      if op = VarOp.VA_TIMER ∧ signum = TIMER_NOTIFICATION ∧ ui = id then EOK
      else if op = VarOp.VA_SYSVAR ∧ signum = VAR_NOTIFICATION ∧ h = id then EOK
      else if CheckInConditions l signum id = EOK then EOK
      else if CheckInConditions r signum id = EOK then EOK
      else ENOENT

/-- Spec-side containment relation: event `(kind, id)` is referenced
somewhere in the tree.  Written from the specification words, to be
compared with `CheckInConditions`. -/
def refsEvent : VarTree → Nat → Nat → Bool
  | VarTree.nil, _, _ => false
  | VarTree.node op ui h l r, k, i =>
      (decide (op = VarOp.VA_TIMER) && decide (k = TIMER_NOTIFICATION)
        && decide (ui = i))
      || (decide (op = VarOp.VA_SYSVAR) && decide (k = VAR_NOTIFICATION)
        && decide (h = i))
      || refsEvent l k i || refsEvent r k i

/-! ## Timer manager (timer.c) -/

/-- MAX_TIMERS from timer.c. -/
def MAX_TIMERS : Nat := 255

/-- Calls the timer functions make, in order: the internal `DeleteTimer`
call, the OS `timer_create` call, and the OS `timer_settime` call with
the `it_interval` / `it_value` milliseconds taken from the itimerspec. -/
inductive TimerCall where
  | deleteTimer (id : Int)
  | timerCreate (id : Int)
  | timerSettime (id : Int) (intervalMs valueMs : Int)
deriving DecidableEq, Repr

/-- Outcome of `DeleteTimer` (timer.c lines 105-129), keeping the branch
structure of the C code explicit: in range, the result is the outcome of
the OS `timer_delete` call (EOK on success, the errno on failure);
out of range, the not-found branch is taken. -/
inductive DeleteResult where
  | ok
  | osError (e : Nat)
  | notFound
deriving DecidableEq, Repr

/-- The errno value `DeleteTimer` actually returns for each branch. -/
def DeleteResult.errno : DeleteResult → Nat
  | DeleteResult.ok => EOK
  | DeleteResult.osError e => e
  | DeleteResult.notFound => ENOENT

/-- Translation of `DeleteTimer` (timer.c lines 105-129).  `osDelete` is
the outcome of the OS `timer_delete` call on the stored timer id:
`none` for success, `some e` for failure with errno `e`. -/
def DeleteTimer (osDelete : Option Nat) (id : Int) : DeleteResult :=
  if 0 < id ∧ id < 255 then
    match osDelete with
    | none => DeleteResult.ok
    | some e => DeleteResult.osError e
  else DeleteResult.notFound

/-- Translation of `CreateTimer` (timer.c lines 151-193).  `timers` is the
file-scoped timer table (0 = empty slot); `osCreate` and `osSettime` are
the return values of the OS `timer_create` / `timer_settime` calls, which
the C code never inspects.  Returns the function result together with the
list of calls made, in order. -/
def CreateTimer (osCreate osSettime : Int) (timers : Nat → Nat)
    (id timeoutms : Int) : Nat × List TimerCall :=
  if 0 < id ∧ id < 255 then
    let pre := if timers id.toNat ≠ 0 then [TimerCall.deleteTimer id] else []
    (EOK, pre ++ [TimerCall.timerCreate id,
                  TimerCall.timerSettime id 0 timeoutms])
  else (ENOENT, [])

/-- Translation of `CreateTick` (timer.c lines 215-257).  Identical to
`CreateTimer` except that the itimerspec `it_interval` equals the timeout,
making the timer periodic. -/
def CreateTick (osCreate osSettime : Int) (timers : Nat → Nat)
    (id timeoutms : Int) : Nat × List TimerCall :=
  if 0 < id ∧ id < 255 then
    let pre := if timers id.toNat ≠ 0 then [TimerCall.deleteTimer id] else []
    (EOK, pre ++ [TimerCall.timerCreate id,
                  TimerCall.timerSettime id timeoutms timeoutms])
  else (ENOENT, [])

/-! ## Parser semantic actions (statemachine.y) -/

/-- `CreateVariable(op, left, right)` from libvaraction as used by the
grammar actions: a fresh node with the given operation and children. -/
def CreateVariable (op : VarOp) (l r : VarTree) : VarTree :=
  VarTree.node op 0 0 l r

/-- The five productions of the `timer_statement` rule
(statemachine.y lines 360-371), with the `number` / `identifier`
subtrees they carry. -/
inductive TimerStatementForm where
  | createTimerNumNum (n1 n2 : VarTree)
  | createTimerNumId (n idExpr : VarTree)
  | createTickNumNum (n1 n2 : VarTree)
  | createTickNumId (n idExpr : VarTree)
  | deleteTimerNum (n : VarTree)
deriving DecidableEq, Repr

/-- Translation of the `timer_statement` semantic actions
(statemachine.y lines 360-371): the operation code passed to
`CreateVariable` in each reduction, exactly as written in the grammar. -/
def timer_statement : TimerStatementForm → VarTree
  | TimerStatementForm.createTimerNumNum a b =>
      CreateVariable VarOp.VA_CREATE_TIMER a b
  | TimerStatementForm.createTimerNumId a b =>
      CreateVariable VarOp.VA_CREATE_TIMER a b
  | TimerStatementForm.createTickNumNum a b =>
      CreateVariable VarOp.VA_CREATE_TICK a b
  | TimerStatementForm.createTickNumId a b =>
      CreateVariable VarOp.VA_CREATE_TIMER a b
  | TimerStatementForm.deleteTimerNum a =>
      CreateVariable VarOp.VA_DELETE_TIMER a VarTree.nil

/-- Root operation code of a built tree. -/
def rootOp : VarTree → Option VarOp
  | VarTree.nil => none
  | VarTree.node op _ _ _ _ => some op

/-- Translation of `RequestNotifications` (statemachine.y lines 784-822):
post-order walk of an expression tree, emitting one `VAR_Notify`
modification-subscription request per VA_SYSVAR node whose handle is
valid.  The returned list is the sequence of handles passed to
`VAR_Notify`, in call order. -/
def RequestNotifications : VarTree → List Nat
  | VarTree.nil => []
  | VarTree.node op _ h l r =>
      RequestNotifications l ++ RequestNotifications r ++
        (if op = VarOp.VA_SYSVAR ∧ h ≠ VAR_INVALID then [h] else [])

/-- Number of nodes of a tree satisfying a predicate on the operation
code and the handle. -/
def countNodesIf (p : VarOp → Nat → Bool) : VarTree → Nat
  | VarTree.nil => 0
  | VarTree.node op _ h l r =>
      countNodesIf p l + countNodesIf p r + (if p op h then 1 else 0)

/-- A VA_SYSVAR node with a valid variable-server handle. -/
def isValidSysvar (op : VarOp) (h : Nat) : Bool :=
  decide (op = VarOp.VA_SYSVAR) && decide (h ≠ VAR_INVALID)

/-- The pieces of a `state_body` reduction that carry expression trees:
the entry-block statements, the transitions (target name and guard) in
definition order, and the exit-block statements. -/
structure StateBodyAst where
  entryStmts : List VarTree
  guards : List (String × VarTree)
  exitStmts : List VarTree

/-- Semantic action of the `transition` rule (statemachine.y lines
234-244): when a transition is reduced, `RequestNotifications` is run on
its guard tree.  Returns the subscription requests made. -/
def transitionReduce (guard : String × VarTree) : List Nat :=
  RequestNotifications guard.2

/-- Subscription requests made while reducing a whole state body: the
`transition` rule is the only semantic action in the grammar that calls
`RequestNotifications` (or `VAR_Notify`); the `entry`, `exit` and
`statement` rules make no such call. -/
def stateReduceNotifs (b : StateBodyAst) : List Nat :=
  (b.guards.map transitionReduce).flatten

/-! ## State machine data model (SMTypes.h) -/

/-- A `StateEntry`: the entry block of a state.  `pStatements` is the
(possibly NULL) statement list, identified by an opaque key that the
statement-processing oracle is consulted with. -/
structure StateEntry where
  pStatements : Option Nat
deriving DecidableEq, Repr

/-- A `StateExit`: the exit block of a state, same shape as `StateEntry`. -/
structure StateExit where
  pStatements : Option Nat
deriving DecidableEq, Repr

/-- A `Transition`: target state name and guard expression.  The `pNext`
chaining of the C struct becomes list structure. -/
structure Transition where
  statename : String
  pVariable : VarTree
deriving DecidableEq, Repr

/-- A `State`: identifier, optional entry block, transition list in
definition order, optional exit block.  `entry` and `exit` are `Option`
because the C fields are nullable pointers. -/
structure State where
  id : String
  entry : Option StateEntry
  trans : List Transition
  exit : Option StateExit
deriving DecidableEq, Repr

/-- The `StateMachine` object: the state list and the current state.
The handle, name, description and verbose fields play no role in the
dispatch logic and are omitted. -/
structure StateMachine where
  pStateList : List State
  pCurrentState : Option State
deriving DecidableEq, Repr

/-- Oracles for the external libvaraction evaluation functions:
`processExpr t` is the `(status, root value obj.val.ui)` outcome of
`ProcessExpr` on tree `t` (with the active-timer register implicitly
fixed by the dispatch in progress), and `processStmts k` is the status
of `ProcessCompoundStatement` on the statement list keyed `k`. -/
structure Env where
  processExpr : VarTree → Nat × Nat
  processStmts : Nat → Nat

/-- Observable actions of a dispatch: a transition fired (its guard
matched the event and evaluated nonzero, so its exit/enter sequence
began), the exit phase of a state was performed, the enter phase of a
state was performed (the current state pointer was set to it). -/
inductive Act where
  | fired (target : String)
  | exitRun (stateId : String)
  | enterRun (stateId : String)
deriving DecidableEq, Repr

/-- Number of transitions that fired in a trace. -/
def countFired (l : List Act) : Nat :=
  l.countP (fun a => match a with | Act.fired _ => true | _ => false)

/-! ## Engine (engine.c) -/

/-- Translation of `FindState` (engine.c lines 230-252): first state in
the list whose id string-compares equal to the name. -/
def FindState (sm : StateMachine) (stateName : String) : Option State :=
  sm.pStateList.find? (fun s => s.id == stateName)

/-- Translation of `EnterState` (engine.c lines 505-552).  Looks up the
target state; if found, sets the current state pointer, then runs the
entry statements when the entry block and its statement list exist
(result EOK when the statement list is NULL, and the logged-error branch
leaves the initial `result = EINVAL` when the entry block itself is
NULL).  When the state is not found the machine is untouched and the
result is ENOENT.  Also returns the trace of enter actions. -/
def EnterState (env : Env) (sm : StateMachine) (targetState : String) :
    Nat × StateMachine × List Act :=
  match FindState sm targetState with
  | some pState =>
      let sm' : StateMachine := { sm with pCurrentState := some pState }
      match pState.entry with
      | some entry =>
          match entry.pStatements with
          | some stmts => (env.processStmts stmts, sm', [Act.enterRun pState.id])
          | none => (EOK, sm', [Act.enterRun pState.id])
      | none => (EINVAL, sm', [Act.enterRun pState.id])
  | none => (ENOENT, sm, [])

/-- Translation of `ExitState` (engine.c lines 570-616).  Runs the exit
statements of the current state when the exit block and its statement
list exist (EOK when the statement list is NULL; the logged-error branch
leaves `result = EINVAL` when the exit block is NULL or when there is no
current state). -/
def ExitState (env : Env) (sm : StateMachine) : Nat × List Act :=
  match sm.pCurrentState with
  | some pState =>
      match pState.exit with
      | some ex =>
          match ex.pStatements with
          | some stmts => (env.processStmts stmts, [Act.exitRun pState.id])
          | none => (EOK, [Act.exitRun pState.id])
      | none => (EINVAL, [Act.exitRun pState.id])
  | none => (EINVAL, [])

/-- Translation of `CheckTransition` (engine.c lines 376-419).  The
signal is first looked for in the guard with `CheckInConditions`; on EOK
the guard is evaluated with `ProcessExpr`; a nonzero result fires the
transition: exit actions of the current state, then `EnterState` on the
target (skipped when the exit failed).  All other outcomes return the
status of the step that stopped the check. -/
def CheckTransition (env : Env) (sm : StateMachine) (trans : Transition)
    (signum id : Nat) : Nat × StateMachine × List Act :=
  let c := CheckInConditions trans.pVariable signum id
  if c = EOK then
    let pr := env.processExpr trans.pVariable
    if pr.1 = EOK then
      if pr.2 ≠ 0 then
        let ex := ExitState env sm
        if ex.1 = EOK then
          let en := EnterState env sm trans.statename
          (en.1, en.2.1, Act.fired trans.statename :: (ex.2 ++ en.2.2))
        else
          (ex.1, sm, Act.fired trans.statename :: ex.2)
      else (ENOTSUP, sm, [])
    else (pr.1, sm, [])
  else (c, sm, [])

/-- The `while( trans != NULL )` loop of `HandleSignal` (engine.c lines
307-322): `result` starts at ENOENT, each transition is checked in
order, the loop stops at the first check that returns EOK, and the
result of the dispatch is the result of the last check performed. -/
def transLoop (env : Env) (signum id : Nat) :
    List Transition → StateMachine → Nat → Nat × StateMachine × List Act
  | [], sm, res => (res, sm, [])
  | tr :: rest, sm, _ =>
      let r := CheckTransition env sm tr signum id
      if r.1 = EOK then r
      else
        let r2 := transLoop env signum id rest r.2.1 r.1
        (r2.1, r2.2.1, r.2.2 ++ r2.2.2)

/-- Translation of `HandleSignal` (engine.c lines 285-335).  The
`SetTimer` active-timer bookkeeping is absorbed into the `Env` oracle.
With no current state the result is ENOTRECOVERABLE; otherwise the
transition list of the current state is scanned by `transLoop`. -/
def HandleSignal (env : Env) (sm : StateMachine) (signum id : Nat) :
    Nat × StateMachine × List Act :=
  match sm.pCurrentState with
  | some pState => transLoop env signum id pState.trans sm ENOENT
  | none => (ENOTRECOVERABLE, sm, [])

/-! ## Concrete fixtures used by witnesses and counterexamples -/

/-- Oracle where every guard evaluates successfully to 1 and every
statement list processes successfully. -/
def envOne : Env := ⟨fun _ => (EOK, 1), fun _ => EOK⟩

/-- Oracle where every guard evaluates successfully to 0. -/
def envZero : Env := ⟨fun _ => (EOK, 0), fun _ => EOK⟩

/-- Guard `timer 1`: a VA_TIMER node with stored value 1. -/
def guardTimer1 : VarTree := VarTree.node VarOp.VA_TIMER 1 0 VarTree.nil VarTree.nil

/-- Guard `timer 3`. -/
def guardTimer3 : VarTree := VarTree.node VarOp.VA_TIMER 3 0 VarTree.nil VarTree.nil

/-- Guard on the system variable with handle 5. -/
def guardSys5 : VarTree := VarTree.node VarOp.VA_SYSVAR 0 5 VarTree.nil VarTree.nil

/-- An entry block with a NULL statement list. -/
def emptyEntry : StateEntry := ⟨none⟩

/-- An exit block with a NULL statement list. -/
def emptyExit : StateExit := ⟨none⟩

/-- A terminal state named t with empty entry/exit blocks. -/
def stT : State := ⟨"t", some emptyEntry, [], some emptyExit⟩

/-- A machine whose only state is t. -/
def smT : StateMachine := ⟨[stT], some stT⟩


/-- A state with a NULL entry pointer and a NULL exit pointer. -/
def stNoBlocks : State := ⟨"a", none, [], none⟩

/-- A machine currently in `stNoBlocks`. -/
def smNoBlocks : StateMachine := ⟨[stNoBlocks], some stNoBlocks⟩


/-- The current-state values a dispatch can drive the machine through:
the original current state, or any state of the (never modified) state
list. -/
def currentCandidates (sm : StateMachine) : List (Option State) :=
  sm.pCurrentState :: sm.pStateList.map some

/-- `sm` is a mid-dispatch configuration of `sm0`: same state list, and
a current state drawn from the candidates of `sm0`. -/
def InConfigs (sm0 sm : StateMachine) : Prop :=
  ∃ cur ∈ currentCandidates sm0, sm = { sm0 with pCurrentState := cur }

/-- State s with a single transition to t guarded on timer 1. -/
def stS1 : State := ⟨"s", some emptyEntry, [⟨"t", guardTimer1⟩], some emptyExit⟩

/-- Machine in state s, where every transition target resolves. -/
def smS1 : StateMachine := ⟨[stS1, stT], some stS1⟩

/-- State s whose first transition (on timer 1) targets a state absent
from the machine, and whose second (also on timer 1) targets t. -/
def stS2 : State :=
  ⟨"s", some emptyEntry,
   [⟨"missing", guardTimer1⟩, ⟨"t", guardTimer1⟩], some emptyExit⟩

/-- Machine in state `stS2`; the name missing resolves to nothing. -/
def smS2 : StateMachine := ⟨[stS2, stT], some stS2⟩

/-- State s with a first transition guarded on variable handle 5 and a
second guarded on timer 3, both targeting t. -/
def stS7 : State :=
  ⟨"s", some emptyEntry, [⟨"t", guardSys5⟩, ⟨"t", guardTimer3⟩],
   some emptyExit⟩

/-- Machine in state `stS7`. -/
def smS7 : StateMachine := ⟨[stS7, stT], some stS7⟩

/-- State s with a single transition guarded on timer 3 targeting t. -/
def stS8 : State := ⟨"s", some emptyEntry, [⟨"t", guardTimer3⟩], some emptyExit⟩

/-- Machine in state `stS8`. -/
def smS8 : StateMachine := ⟨[stS8, stT], some stS8⟩


/-! ## Theorems: timer manager claims -/

/-- Claim C4: Each of CreateTimer, CreateTick and DeleteTimer takes its
not-found branch (returning ENOENT) exactly when the timer id is outside
[1, 254]; for every id inside that range the not-found branch is never
taken. -/
theorem C4_timer_id_range :
    ∀ (id timeoutms osCreate osSettime : Int) (osDelete : Option Nat)
      (timers : Nat → Nat),
      ((CreateTimer osCreate osSettime timers id timeoutms).1 = ENOENT
        ↔ (id < 1 ∨ 254 < id)) ∧
      ((CreateTick osCreate osSettime timers id timeoutms).1 = ENOENT
        ↔ (id < 1 ∨ 254 < id)) ∧
      (DeleteTimer osDelete id = DeleteResult.notFound
        ↔ (id < 1 ∨ 254 < id)) ∧
      DeleteResult.errno DeleteResult.notFound = ENOENT := by
  intro id timeoutms osCreate osSettime osDelete timers
  by_cases h : 0 < id ∧ id < 255
  · refine ⟨?_, ?_, ?_, rfl⟩
    · simp [CreateTimer, if_pos h, EOK, ENOENT]
      omega
    · simp [CreateTick, if_pos h, EOK, ENOENT]
      omega
    · cases osDelete <;> simp [DeleteTimer, if_pos h] <;> omega
  · refine ⟨?_, ?_, ?_, rfl⟩
    · simp [CreateTimer, if_neg h, ENOENT]
      omega
    · simp [CreateTick, if_neg h, ENOENT]
      omega
    · simp [DeleteTimer, if_neg h]
      omega

/-- Claim C5: for an id in [1, 254] whose slot holds a live timer
(nonzero table entry), CreateTimer and CreateTick call DeleteTimer on
that id before making the OS calls that install the new timer. -/
theorem C5_create_on_occupied_slot_deletes_first :
    ∀ (osCreate osSettime : Int) (timers : Nat → Nat) (id timeoutms : Int),
      1 ≤ id → id ≤ 254 → timers id.toNat ≠ 0 →
      (CreateTimer osCreate osSettime timers id timeoutms).2
        = [TimerCall.deleteTimer id, TimerCall.timerCreate id,
           TimerCall.timerSettime id 0 timeoutms] ∧
      (CreateTick osCreate osSettime timers id timeoutms).2
        = [TimerCall.deleteTimer id, TimerCall.timerCreate id,
           TimerCall.timerSettime id timeoutms timeoutms] := by
  intro osCreate osSettime timers id timeoutms h1 h2 hocc
  have hr : 0 < id ∧ id < 255 := by omega
  constructor
  · simp [CreateTimer, if_pos hr, hocc]
  · simp [CreateTick, if_pos hr, hocc]

/-- Witness for C5 at id 3 with an occupied slot. -/
theorem C5_create_on_occupied_slot_deletes_first_witness :
    (1 : Int) ≤ 3 ∧ (3 : Int) ≤ 254 ∧ (fun _ : Nat => 1) (Int.toNat 3) ≠ 0 ∧
    ((CreateTimer 0 0 (fun _ => 1) 3 2000).2
        = [TimerCall.deleteTimer 3, TimerCall.timerCreate 3,
           TimerCall.timerSettime 3 0 2000] ∧
     (CreateTick 0 0 (fun _ => 1) 3 2000).2
        = [TimerCall.deleteTimer 3, TimerCall.timerCreate 3,
           TimerCall.timerSettime 3 2000 2000]) :=
  ⟨by decide, by decide, by decide,
   C5_create_on_occupied_slot_deletes_first 0 0 (fun _ => 1) 3 2000
     (by decide) (by decide) (by decide)⟩

/-- Claim C10: for every id in [1, 254] and every interval, CreateTimer
and CreateTick return EOK regardless of the outcomes of the OS calls
timer_create and timer_settime, whose results the code never checks. -/
theorem C10_create_unconditional_eok :
    ∀ (osCreate osSettime : Int) (timers : Nat → Nat) (id timeoutms : Int),
      1 ≤ id → id ≤ 254 →
      (CreateTimer osCreate osSettime timers id timeoutms).1 = EOK ∧
      (CreateTick osCreate osSettime timers id timeoutms).1 = EOK := by
  intro osCreate osSettime timers id timeoutms h1 h2
  have hr : 0 < id ∧ id < 255 := by omega
  constructor
  · simp [CreateTimer, if_pos hr]
  · simp [CreateTick, if_pos hr]

/-- Witness for C10 at id 7 with both OS calls failing (-1). -/
theorem C10_create_unconditional_eok_witness :
    (1 : Int) ≤ 7 ∧ (7 : Int) ≤ 254 ∧
    ((CreateTimer (-1) (-1) (fun _ => 0) 7 100).1 = EOK ∧
     (CreateTick (-1) (-1) (fun _ => 0) 7 100).1 = EOK) :=
  ⟨by decide, by decide,
   C10_create_unconditional_eok (-1) (-1) (fun _ => 0) 7 100
     (by decide) (by decide)⟩

/-! ## Theorems: parser claims -/

/-- Claim C9: the reduction of `create tick <number> <identifier>` builds
its node with operation VA_CREATE_TIMER, while
`create tick <number> <number>` builds VA_CREATE_TICK. -/
theorem C9_create_tick_identifier_label :
    ∀ a b : VarTree,
      rootOp (timer_statement (TimerStatementForm.createTickNumId a b))
        = some VarOp.VA_CREATE_TIMER ∧
      rootOp (timer_statement (TimerStatementForm.createTickNumId a b))
        ≠ some VarOp.VA_CREATE_TICK ∧
      rootOp (timer_statement (TimerStatementForm.createTickNumNum a b))
        = some VarOp.VA_CREATE_TICK := by
  intro a b
  refine ⟨rfl, ?_, rfl⟩
  simp [timer_statement, CreateVariable, rootOp]

/-- Each valid-handle VA_SYSVAR node of a tree contributes exactly one
notification request to the RequestNotifications walk. -/
theorem requestNotifications_length :
    ∀ t : VarTree,
      (RequestNotifications t).length = countNodesIf isValidSysvar t := by
  intro t
  induction t with
  | nil => simp [RequestNotifications, countNodesIf]
  | node op ui h l r ihl ihr =>
      by_cases hp : op = VarOp.VA_SYSVAR ∧ h ≠ VAR_INVALID
      · simp [RequestNotifications, countNodesIf, isValidSysvar, ihl, ihr,
              hp.1, hp.2]
        omega
      · simp only [RequestNotifications, countNodesIf, if_neg hp,
                   List.append_nil, List.length_append, ihl, ihr]
        have : isValidSysvar op h = false := by
          simp [isValidSysvar]
          tauto
        simp [this]

/-- Claim C8: reducing a state body registers exactly one modification
subscription per valid-handle VA_SYSVAR node of each transition guard,
at transition-reduction time, and the entry and exit statement trees
contribute no subscription at all. -/
theorem C8_guard_subscriptions :
    ∀ b : StateBodyAst,
      (stateReduceNotifs b).length
        = (b.guards.map (fun g => countNodesIf isValidSysvar g.2)).sum ∧
      (∀ g : String × VarTree,
          (transitionReduce g).length = countNodesIf isValidSysvar g.2) ∧
      (∀ e x : List VarTree,
          stateReduceNotifs ⟨e, b.guards, x⟩ = stateReduceNotifs b) := by
  intro b
  refine ⟨?_, ?_, ?_⟩
  · simp only [stateReduceNotifs, List.length_flatten, List.map_map]
    have hf : (List.length ∘ transitionReduce)
        = fun g : String × VarTree => countNodesIf isValidSysvar g.2 := by
      funext g
      simp [transitionReduce, requestNotifications_length]
    rw [hf]
  · intro g
    simp [transitionReduce, requestNotifications_length]
  · intro e x
    rfl

/-- CheckInConditions finds the event exactly when the containment
relation holds (also at a NULL tree, where EINVAL differs from EOK and
containment is false). -/
theorem checkInConditions_eok_iff :
    ∀ (t : VarTree) (k i : Nat),
      CheckInConditions t k i = EOK ↔ refsEvent t k i = true := by
  intro t k i
  induction t with
  | nil => simp [CheckInConditions, refsEvent, EINVAL, EOK]
  | node op ui h l r ihl ihr =>
      simp only [CheckInConditions]
      by_cases h1 : op = VarOp.VA_TIMER ∧ k = TIMER_NOTIFICATION ∧ ui = i
      · simp [refsEvent, h1.1, h1.2.1, h1.2.2]
      · by_cases h2 : op = VarOp.VA_SYSVAR ∧ k = VAR_NOTIFICATION ∧ h = i
        · simp only [if_neg h1, if_pos h2]
          simp [refsEvent, h2.1, h2.2.1, h2.2.2]
        · simp only [if_neg h1, if_neg h2]
          by_cases h3 : CheckInConditions l k i = EOK
          · simp only [if_pos h3]
            have : refsEvent l k i = true := ihl.mp h3
            simp [refsEvent, this]
          · by_cases h4 : CheckInConditions r k i = EOK
            · simp only [if_neg h3, if_pos h4]
              have : refsEvent r k i = true := ihr.mp h4
              simp [refsEvent, this]
            · simp only [if_neg h3, if_neg h4]
              have hl : refsEvent l k i = false :=
                Bool.eq_false_iff.mpr (fun hh => h3 (ihl.mpr hh))
              have hr : refsEvent r k i = false :=
                Bool.eq_false_iff.mpr (fun hh => h4 (ihr.mpr hh))
              simp [refsEvent, hl, hr, ENOENT, EOK]
              tauto

/-- On a non-NULL tree CheckInConditions only ever answers EOK or ENOENT. -/
theorem checkInConditions_node_cases :
    ∀ (op : VarOp) (ui h : Nat) (l r : VarTree) (k i : Nat),
      CheckInConditions (VarTree.node op ui h l r) k i = EOK ∨
      CheckInConditions (VarTree.node op ui h l r) k i = ENOENT := by
  intro op ui h l r k i
  simp only [CheckInConditions]
  split_ifs <;> simp

/-- Claim C2: on any non-NULL guard tree, CheckInConditions returns EOK
exactly when the event is contained in the tree per the recursive
matching relation, and ENOENT otherwise. -/
theorem C2_checkInConditions_matches_containment :
    ∀ (t : VarTree) (k i : Nat),
      t ≠ VarTree.nil →
      CheckInConditions t k i = (if refsEvent t k i then EOK else ENOENT) := by
  intro t k i hne
  by_cases hr : refsEvent t k i = true
  · rw [if_pos hr]
    exact (checkInConditions_eok_iff t k i).mpr hr
  · rw [if_neg hr]
    match t, hne with
    | VarTree.node op ui h l r, _ =>
        rcases checkInConditions_node_cases op ui h l r k i with heok | henoent
        · exact absurd ((checkInConditions_eok_iff _ k i).mp heok) hr
        · exact henoent

/-- Witness for C2: a single VA_SYSVAR node guard, matched by the
variable event carrying its handle. -/
theorem C2_checkInConditions_matches_containment_witness :
    VarTree.node VarOp.VA_SYSVAR 0 5 VarTree.nil VarTree.nil ≠ VarTree.nil ∧
    CheckInConditions (VarTree.node VarOp.VA_SYSVAR 0 5 VarTree.nil VarTree.nil)
        VAR_NOTIFICATION 5
      = (if refsEvent (VarTree.node VarOp.VA_SYSVAR 0 5 VarTree.nil VarTree.nil)
            VAR_NOTIFICATION 5 then EOK else ENOENT) :=
  ⟨by decide,
   C2_checkInConditions_matches_containment
     (VarTree.node VarOp.VA_SYSVAR 0 5 VarTree.nil VarTree.nil)
     VAR_NOTIFICATION 5 (by decide)⟩

/-! ## Theorems: engine claims -/

/-- Claim C3: when the target state name of a fired transition does not
resolve, EnterState returns ENOENT and leaves the machine — in
particular the current state pointer — unchanged. -/
theorem C3_enterState_missing_target :
    ∀ (env : Env) (sm : StateMachine) (targetState : String),
      FindState sm targetState = none →
      EnterState env sm targetState = (ENOENT, sm, []) := by
  intro env sm targetState h
  simp [EnterState, h]

/-- Witness for C3: looking up a name absent from the state list. -/
theorem C3_enterState_missing_target_witness :
    FindState smT "missing" = none ∧
    EnterState envOne smT "missing" = (ENOENT, smT, []) :=
  ⟨by decide, C3_enterState_missing_target envOne smT "missing" (by decide)⟩

/-- Counterexample to claim C6 as stated: with the entry (resp. exit)
block missing, EnterState (resp. ExitState) does log and executes
nothing, but returns EINVAL, not success: the `result` initialised to
EINVAL is never overwritten on that path. -/
theorem C6_missing_block_counterexample :
    (EnterState envOne smNoBlocks "a").1 = EINVAL ∧
    (ExitState envOne smNoBlocks).1 = EINVAL ∧
    EINVAL ≠ EOK :=
  ⟨rfl, rfl, by decide⟩

/-- Claim C6 amended: entering a state whose entry block is missing
still sets the current state pointer and executes no statements, but
returns EINVAL; exiting a state whose exit block is missing executes no
statements and returns EINVAL. -/
theorem C6_missing_block_amended :
    ∀ (env : Env) (sm : StateMachine) (targetState : String) (st : State),
      FindState sm targetState = some st →
      st.entry = none →
      (EnterState env sm targetState
        = (EINVAL, { sm with pCurrentState := some st },
           [Act.enterRun st.id])) ∧
      (∀ (sm2 : StateMachine) (st2 : State),
        sm2.pCurrentState = some st2 → st2.exit = none →
        ExitState env sm2 = (EINVAL, [Act.exitRun st2.id])) := by
  intro env sm targetState st hf he
  constructor
  · simp [EnterState, hf, he]
  · intro sm2 st2 hc hx
    simp [ExitState, hc, hx]

/-- Witness for the amended C6 on the concrete block-less machine. -/
theorem C6_missing_block_amended_witness :
    FindState smNoBlocks "a" = some stNoBlocks ∧
    stNoBlocks.entry = none ∧
    ((EnterState envOne smNoBlocks "a"
        = (EINVAL, { smNoBlocks with pCurrentState := some stNoBlocks },
           [Act.enterRun stNoBlocks.id])) ∧
     (∀ (sm2 : StateMachine) (st2 : State),
        sm2.pCurrentState = some st2 → st2.exit = none →
        ExitState envOne sm2 = (EINVAL, [Act.exitRun st2.id]))) :=
  ⟨by decide, rfl,
   C6_missing_block_amended envOne smNoBlocks "a" stNoBlocks (by decide) rfl⟩

/-! ## Dispatch-loop lemmas -/

/-- countFired distributes over append. -/
theorem countFired_append (a b : List Act) :
    countFired (a ++ b) = countFired a + countFired b := by
  simp [countFired, List.countP_append]

/-- EnterState never emits a fired marker. -/
theorem EnterState_countFired (env : Env) (sm : StateMachine) (t : String) :
    countFired (EnterState env sm t).2.2 = 0 := by
  cases hf : FindState sm t with
  | none => simp [EnterState, hf, countFired]
  | some st =>
      cases he : st.entry with
      | none => simp [EnterState, hf, he, countFired]
      | some e => cases hs : e.pStatements <;>
          simp [EnterState, hf, he, hs, countFired]

/-- ExitState never emits a fired marker. -/
theorem ExitState_countFired (env : Env) (sm : StateMachine) :
    countFired (ExitState env sm).2 = 0 := by
  cases hc : sm.pCurrentState with
  | none => simp [ExitState, hc, countFired]
  | some st =>
      cases hx : st.exit with
      | none => simp [ExitState, hc, hx, countFired]
      | some ex => cases hs : ex.pStatements <;>
          simp [ExitState, hc, hx, hs, countFired]

/-- One transition check emits at most one fired marker. -/
theorem CheckTransition_countFired_le_one (env : Env) (sm : StateMachine)
    (tr : Transition) (s i : Nat) :
    countFired (CheckTransition env sm tr s i).2.2 ≤ 1 := by
  have hx := ExitState_countFired env sm
  have hn := EnterState_countFired env sm tr.statename
  simp only [CheckTransition]
  split_ifs with h1 h2 h3 h4
  · simp [countFired, List.countP_cons, List.countP_append] at hx hn ⊢
    exact ⟨hx, hn⟩
  · simp [countFired, List.countP_cons] at hx ⊢
    exact hx
  · simp [countFired]
  · simp [countFired]
  · simp [countFired]

/-- EnterState leaves the machine unchanged or only repoints the current
state at a member of the state list it found. -/
theorem EnterState_machine_shape (env : Env) (sm : StateMachine) (t : String) :
    (EnterState env sm t).2.1 = sm ∨
    ∃ st, FindState sm t = some st ∧
      (EnterState env sm t).2.1 = { sm with pCurrentState := some st } := by
  cases hf : FindState sm t with
  | none => left; simp [EnterState, hf]
  | some st =>
      right
      refine ⟨st, rfl, ?_⟩
      cases he : st.entry with
      | none => simp [EnterState, hf, he]
      | some e => cases hs : e.pStatements <;> simp [EnterState, hf, he, hs]

/-- CheckTransition leaves the machine unchanged or only repoints the
current state at the resolved target. -/
theorem CheckTransition_machine_shape (env : Env) (sm : StateMachine)
    (tr : Transition) (s i : Nat) :
    (CheckTransition env sm tr s i).2.1 = sm ∨
    ∃ st, FindState sm tr.statename = some st ∧
      (CheckTransition env sm tr s i).2.1
        = { sm with pCurrentState := some st } := by
  simp only [CheckTransition]
  split_ifs
  · simpa using EnterState_machine_shape env sm tr.statename
  · exact Or.inl rfl
  · exact Or.inl rfl
  · exact Or.inl rfl
  · exact Or.inl rfl

/-- Every machine is one of its own dispatch configurations. -/
theorem inConfigs_self (sm : StateMachine) : InConfigs sm sm :=
  ⟨sm.pCurrentState, List.mem_cons_self _ _, rfl⟩

/-- CheckTransition keeps the machine inside the dispatch
configurations of the base machine. -/
theorem CheckTransition_inConfigs (env : Env) (sm0 sm : StateMachine)
    (tr : Transition) (s i : Nat) :
    InConfigs sm0 sm → InConfigs sm0 (CheckTransition env sm tr s i).2.1 := by
  rintro ⟨cur, hmem, rfl⟩
  rcases CheckTransition_machine_shape env { sm0 with pCurrentState := cur }
      tr s i with heq | ⟨st, hf, heq⟩
  · rw [heq]; exact ⟨cur, hmem, rfl⟩
  · rw [heq]
    refine ⟨some st, ?_, rfl⟩
    have hmem2 : st ∈ sm0.pStateList := by
      have hf2 : sm0.pStateList.find? (fun s2 => s2.id == tr.statename)
          = some st := by
        simpa [FindState] using hf
      exact List.mem_of_find?_eq_some hf2
    exact List.mem_cons_of_mem _ (List.mem_map_of_mem some hmem2)

/-- Loop invariant for the dispatch loop: if every transition of the
scanned list, checked from any dispatch configuration, either fully
succeeds (EOK) or does not fire, then the loop fires at most once. -/
theorem transLoop_countFired_le_one (env : Env) (sm0 : StateMachine)
    (signum id : Nat) :
    ∀ (ts : List Transition) (sm : StateMachine) (r0 : Nat),
      InConfigs sm0 sm →
      (∀ tr ∈ ts, ∀ cur ∈ currentCandidates sm0,
        (CheckTransition env { sm0 with pCurrentState := cur } tr signum id).1
            = EOK ∨
        countFired
          (CheckTransition env { sm0 with pCurrentState := cur }
            tr signum id).2.2 = 0) →
      countFired (transLoop env signum id ts sm r0).2.2 ≤ 1 := by
  intro ts
  induction ts with
  | nil =>
      intro sm r0 _ _
      simp [transLoop, countFired]
  | cons tr rest ih =>
      intro sm r0 hcfg H
      obtain ⟨cur, hmem, rfl⟩ := hcfg
      simp only [transLoop]
      by_cases hr :
          (CheckTransition env { sm0 with pCurrentState := cur }
            tr signum id).1 = EOK
      · rw [if_pos hr]
        exact CheckTransition_countFired_le_one env _ tr signum id
      · rw [if_neg hr]
        have h0 : countFired
            (CheckTransition env { sm0 with pCurrentState := cur }
              tr signum id).2.2 = 0 := by
          rcases H tr (List.mem_cons_self _ _) cur hmem with hEok | h0
          · exact absurd hEok hr
          · exact h0
        have hrest := ih
          (CheckTransition env { sm0 with pCurrentState := cur }
            tr signum id).2.1
          (CheckTransition env { sm0 with pCurrentState := cur }
            tr signum id).1
          (CheckTransition_inConfigs env sm0 _ tr signum id
            ⟨cur, hmem, rfl⟩)
          (fun tr2 h2 => H tr2 (List.mem_cons_of_mem _ h2))
        show countFired
            ((CheckTransition env { sm0 with pCurrentState := cur }
                tr signum id).2.2 ++
              (transLoop env signum id rest
                (CheckTransition env { sm0 with pCurrentState := cur }
                  tr signum id).2.1
                (CheckTransition env { sm0 with pCurrentState := cur }
                  tr signum id).1).2.2) ≤ 1
        rw [countFired_append, h0]
        simpa using hrest

/-- Claim C1 amended: at most one transition fires per dispatch provided
every transition of the current state that fires completes its
exit/enter sequence successfully (its check returns EOK) from whichever
configuration the dispatch reaches it in.  The loop stops at the first
check that returns EOK; a transition whose guard matched and evaluated
nonzero but whose exit or enter processing failed does not stop the
iteration, so without the proviso a later transition can also fire. -/
theorem C1_at_most_one_fire_amended :
    ∀ (env : Env) (sm : StateMachine) (pState : State) (signum id : Nat),
      sm.pCurrentState = some pState →
      (∀ tr ∈ pState.trans, ∀ cur ∈ currentCandidates sm,
        (CheckTransition env { sm with pCurrentState := cur } tr signum id).1
            = EOK ∨
        countFired
          (CheckTransition env { sm with pCurrentState := cur }
            tr signum id).2.2 = 0) →
      countFired (HandleSignal env sm signum id).2.2 ≤ 1 := by
  intro env sm pState signum id hcur H
  simp only [HandleSignal, hcur]
  exact transLoop_countFired_le_one env sm signum id pState.trans sm ENOENT
    (inConfigs_self sm) H

/-- Witness for the amended C1 on a one-transition machine where all
sequences succeed: dispatching timer 1 fires at most one transition. -/
theorem C1_at_most_one_fire_amended_witness :
    smS1.pCurrentState = some stS1 ∧
    (∀ tr ∈ stS1.trans, ∀ cur ∈ currentCandidates smS1,
      (CheckTransition envOne { smS1 with pCurrentState := cur }
          tr TIMER_NOTIFICATION 1).1 = EOK ∨
      countFired
        (CheckTransition envOne { smS1 with pCurrentState := cur }
          tr TIMER_NOTIFICATION 1).2.2 = 0) ∧
    countFired (HandleSignal envOne smS1 TIMER_NOTIFICATION 1).2.2 ≤ 1 :=
  ⟨rfl, by decide,
   C1_at_most_one_fire_amended envOne smS1 stS1 TIMER_NOTIFICATION 1
     rfl (by decide)⟩

/-- Counterexample to claim C1 as stated: in `smS2` both transitions of
the current state match timer 1 and evaluate nonzero; the first fires
but its target is missing, so its check returns ENOENT instead of EOK,
the loop continues, and the second transition also fires: two exit/enter
sequences execute in a single dispatch. -/
theorem C1_two_transitions_fire_counterexample :
    (HandleSignal envOne smS2 TIMER_NOTIFICATION 1).2.2
      = [Act.fired "missing", Act.exitRun "s",
         Act.fired "t", Act.exitRun "s", Act.enterRun "t"] ∧
    countFired (HandleSignal envOne smS2 TIMER_NOTIFICATION 1).2.2 = 2 ∧
    ¬ countFired (HandleSignal envOne smS2 TIMER_NOTIFICATION 1).2.2 ≤ 1 :=
  ⟨by decide, by decide, by decide⟩

/-- EnterState preserves the state list. -/
theorem EnterState_pStateList (env : Env) (sm : StateMachine) (t : String) :
    (EnterState env sm t).2.1.pStateList = sm.pStateList := by
  cases hf : FindState sm t with
  | none => simp [EnterState, hf]
  | some st =>
      cases he : st.entry with
      | none => simp [EnterState, hf, he]
      | some e => cases hs : e.pStatements <;> simp [EnterState, hf, he, hs]

/-- CheckTransition preserves the state list. -/
theorem CheckTransition_pStateList (env : Env) (sm : StateMachine)
    (tr : Transition) (s i : Nat) :
    (CheckTransition env sm tr s i).2.1.pStateList = sm.pStateList := by
  simp only [CheckTransition]
  split_ifs <;> simp [EnterState_pStateList]

/-- If the action-library oracles never themselves answer ENOENT, a
check that returns ENOENT means the guard does not reference the event,
or the transition fired but its target state is missing. -/
theorem CheckTransition_enoent (env : Env) (sm : StateMachine)
    (tr : Transition) (s i : Nat)
    (hpe : ∀ t, (env.processExpr t).1 ≠ ENOENT)
    (hps : ∀ n, env.processStmts n ≠ ENOENT) :
    (CheckTransition env sm tr s i).1 = ENOENT →
    refsEvent tr.pVariable s i = false ∨
    FindState sm tr.statename = none := by
  intro h
  simp only [CheckTransition] at h
  by_cases h1 : CheckInConditions tr.pVariable s i = EOK
  · rw [if_pos h1] at h
    by_cases h2 : (env.processExpr tr.pVariable).1 = EOK
    · rw [if_pos h2] at h
      by_cases h3 : (env.processExpr tr.pVariable).2 ≠ 0
      · rw [if_pos h3] at h
        by_cases h4 : (ExitState env sm).1 = EOK
        · rw [if_pos h4] at h
          cases hf : FindState sm tr.statename with
          | none => exact Or.inr rfl
          | some st =>
              exfalso
              cases he : st.entry with
              | none =>
                  simp [EnterState, hf, he, EINVAL, ENOENT] at h
              | some e =>
                  cases hs : e.pStatements with
                  | none => simp [EnterState, hf, he, hs, EOK, ENOENT] at h
                  | some n =>
                      simp [EnterState, hf, he, hs] at h
                      exact hps n h
        · rw [if_neg h4] at h
          exfalso
          cases hc : sm.pCurrentState with
          | none => simp [ExitState, hc, EINVAL, ENOENT] at h
          | some st =>
              cases hx : st.exit with
              | none => simp [ExitState, hc, hx, EINVAL, ENOENT] at h
              | some ex =>
                  cases hs : ex.pStatements with
                  | none => simp [ExitState, hc, hx, hs, EOK, ENOENT] at h
                  | some n =>
                      simp [ExitState, hc, hx, hs] at h
                      exact hps n h
      · rw [if_neg h3] at h
        exfalso
        simp [ENOTSUP, ENOENT] at h
    · rw [if_neg h2] at h
      exact absurd h (hpe tr.pVariable)
  · rw [if_neg h1] at h
    left
    cases hb : refsEvent tr.pVariable s i
    · rfl
    · exact absurd ((checkInConditions_eok_iff tr.pVariable s i).mpr hb) h1

/-- Loop-level ENOENT characterisation: an ENOENT dispatch result is the
result of the last check (or of the initial value on an empty list), so
it constrains only the last transition of the list. -/
theorem transLoop_enoent (env : Env) (sm0 : StateMachine) (signum id : Nat)
    (hpe : ∀ t, (env.processExpr t).1 ≠ ENOENT)
    (hps : ∀ n, env.processStmts n ≠ ENOENT) :
    ∀ (ts : List Transition) (sm : StateMachine) (r0 : Nat),
      sm.pStateList = sm0.pStateList →
      (transLoop env signum id ts sm r0).1 = ENOENT →
      (ts = [] ∧ r0 = ENOENT) ∨
      (∃ tl, ts.getLast? = some tl ∧
        (refsEvent tl.pVariable signum id = false ∨
         FindState sm0 tl.statename = none)) := by
  intro ts
  induction ts with
  | nil =>
      intro sm r0 _ h
      left
      exact ⟨rfl, by simpa [transLoop] using h⟩
  | cons tr rest ih =>
      intro sm r0 hlist h
      right
      simp only [transLoop] at h
      by_cases hr : (CheckTransition env sm tr signum id).1 = EOK
      · rw [if_pos hr] at h
        rw [hr] at h
        exact absurd h (by decide)
      · rw [if_neg hr] at h
        have hlist2 : (CheckTransition env sm tr signum id).2.1.pStateList
            = sm0.pStateList := by
          rw [CheckTransition_pStateList]; exact hlist
        rcases ih (CheckTransition env sm tr signum id).2.1
            (CheckTransition env sm tr signum id).1 hlist2 h with
          ⟨hnil, hr0⟩ | ⟨tl, hlast, hprop⟩
        · subst hnil
          refine ⟨tr, by simp, ?_⟩
          rcases CheckTransition_enoent env sm tr signum id hpe hps hr0 with
            hfalse | hfind
          · exact Or.inl hfalse
          · right
            simpa [FindState, hlist] using hfind
        · refine ⟨tl, ?_, hprop⟩
          cases rest with
          | nil => simp at hlast
          | cons b bs => rw [List.getLast?_cons_cons]; exact hlast

/-- Counterexample to claim C7 as stated: `HandleSignal` returns the
result of the last check, so it can answer ENOENT even though the first
transition guard of the current state does reference the event (here it
matched, evaluated to 0, and the later transition did not match). -/
theorem C7_handleSignal_enoent_counterexample :
    (HandleSignal envZero smS7 VAR_NOTIFICATION 5).1 = ENOENT ∧
    smS7.pCurrentState = some stS7 ∧
    stS7.trans.head? = some ⟨"t", guardSys5⟩ ∧
    refsEvent guardSys5 VAR_NOTIFICATION 5 = true :=
  ⟨by decide, rfl, by decide, by decide⟩

/-- Claim C7 amended: when HandleSignal returns ENOENT and neither
oracle itself answers ENOENT, the guarantee applies to the last
transition of the current state only: its guard does not reference the
event, or it fired and its target state is missing.  Guards of earlier
transitions may still reference the event. -/
theorem C7_handleSignal_enoent_amended :
    ∀ (env : Env) (sm : StateMachine) (pState : State) (signum id : Nat)
      (tl : Transition),
      sm.pCurrentState = some pState →
      (∀ t, (env.processExpr t).1 ≠ ENOENT) →
      (∀ n, env.processStmts n ≠ ENOENT) →
      (HandleSignal env sm signum id).1 = ENOENT →
      pState.trans.getLast? = some tl →
      refsEvent tl.pVariable signum id = false ∨
      FindState sm tl.statename = none := by
  intro env sm pState signum id tl hcur hpe hps h hlast
  simp only [HandleSignal, hcur] at h
  rcases transLoop_enoent env sm signum id hpe hps pState.trans sm ENOENT
      rfl h with ⟨hnil, _⟩ | ⟨tl2, hlast2, hprop⟩
  · rw [hnil] at hlast
    simp at hlast
  · have heq : tl2 = tl := Option.some.inj (hlast2.symm.trans hlast)
    rw [heq] at hprop
    exact hprop

/-- Witness for the amended C7: a single-transition state whose timer
guard does not mention the variable event, so the dispatch answers
ENOENT and the last guard indeed does not reference the event. -/
theorem C7_handleSignal_enoent_amended_witness :
    smS8.pCurrentState = some stS8 ∧
    (HandleSignal envOne smS8 VAR_NOTIFICATION 5).1 = ENOENT ∧
    stS8.trans.getLast? = some ⟨"t", guardTimer3⟩ ∧
    (refsEvent guardTimer3 VAR_NOTIFICATION 5 = false ∨
     FindState smS8 "t" = none) :=
  ⟨rfl, by decide, by decide,
   C7_handleSignal_enoent_amended envOne smS8 stS8 VAR_NOTIFICATION 5
     ⟨"t", guardTimer3⟩ rfl (fun t => by simp [envOne, EOK, ENOENT])
     (fun n => by simp [envOne, EOK, ENOENT]) (by decide) (by decide)⟩
